import Mathlib

/-!
Shallow embedding of the Screeps bot core (`src/lib.rs`): the per-tick
task-assignment state machine (`run_creeps`, `run_creep`,
`run_creep_by_target`, `run_creep_upgrade`, `run_creep_harvest`), the
target-selection policy (`find_target`) and the production loop
(`spawn_creeps`).

External game-engine calls are modelled by an oracle structure `World`
giving, for the current tick, the outcome of identifier resolution and
of each issued action.  Every externally visible API call made by the
code is recorded in an output trace of `Command` values; calls that
return a status code record that code in the trace entry.  Rust panics
(`expect` / `unwrap`) are modelled with `Except String`, so a panic
aborts the tick by propagating an `.error`.
-/

/-- Status code returned by the external simulation for an issued action.
The Rust code only distinguishes `Ok`, `NotInRange` and a wildcard; all
remaining codes of the crate enumeration are collapsed into `Other`
with an integer payload. -/
inductive ReturnCode
  | Ok
  | NotInRange
  | Other (code : Int)
deriving DecidableEq, Repr

/-- `CreepTarget` from the source: a creep's lock on a target object,
storing only the serializable object id (modelled as `Nat`) so a fresh
reference can be resolved each tick. -/
inductive CreepTarget
  | Upgrade (controllerId : Nat)
  | Harvest (sourceId : Nat)
deriving DecidableEq, Repr

/-- `CreepState` from the source: the per-creep persistent record. -/
structure CreepState where
  target : Option CreepTarget
deriving DecidableEq, Repr

/-- One structure of a room's structure roster.  The source only ever
asks whether an entry is the controller variant, so every non-controller
variant of the crate's `StructureObject` is collapsed into `OtherStructure`. -/
inductive StructureObject
  | Controller (id : Nat)
  | OtherStructure (tag : Nat)
deriving DecidableEq, Repr

/-- A room, as far as the code reads it: its structure roster (in the
external roster's native order) and its available energy. -/
structure Room where
  structures : List StructureObject
  energyAvailable : Nat
deriving DecidableEq, Repr

/-- A live creep handle for the current tick: identity plus the fields the
code reads.  `usedEnergy` is `store().get_used_capacity(Some(Energy))`
(a `u32`), `freeCapacity` is `store().get_free_capacity(Some(Energy))`
(an `i32`), `room` is `creep.room()` (which may fail to resolve), and
`closestActiveSource` is the external pathfinder's answer to
`pos().find_closest_by_path(SOURCES_ACTIVE, None)`. -/
structure Creep where
  name : String
  spawning : Bool
  usedEnergy : Nat
  freeCapacity : Int
  room : Option Room
  closestActiveSource : Option Nat
deriving DecidableEq, Repr

/-- A live spawn handle: its name and its room (`spawn.room()` may be
`none`, on which the source calls `unwrap`). -/
structure Spawn where
  name : String
  room : Option Room
deriving DecidableEq, Repr

/-- Trace entry: one API call issued to the external simulation.  Work
calls (`upgradeController`, `harvest`, `spawnCreep`) record the status
code the simulation returned; `spawnCreep` additionally records the
value of the per-tick sequence counter from which its name was built. -/
inductive Command
  | upgradeController (creepName : String) (controllerId : Nat) (rc : ReturnCode)
  | harvest (creepName : String) (sourceId : Nat) (rc : ReturnCode)
  | moveTo (creepName : String) (targetId : Nat)
  | spawnCreep (spawnerName : String) (creepName : String) (seq : Nat) (rc : ReturnCode)
deriving DecidableEq, Repr

/-- The external simulation oracle for one tick: whether each retained
identifier still resolves, and the status code each attempted action
would come back with. -/
structure World where
  resolveController : Nat → Bool
  resolveSource : Nat → Bool
  upgradeResult : String → Nat → ReturnCode
  harvestResult : String → Nat → ReturnCode
  spawnResult : String → String → ReturnCode

/-- First controller in a structure roster, in native order: the
`for … if let StructureController … return` loop of `find_target`. -/
def firstControllerId : List StructureObject → Option Nat
  | [] => none
  | StructureObject.Controller cid :: _ => some cid
  | StructureObject.OtherStructure _ :: rest => firstControllerId rest

/-- `find_target` from the source.  Panics (modelled as `.error`) when the
creep's room does not resolve; otherwise, with nonzero carried energy it
takes the first controller of the room's structure roster as an Upgrade
target, and falls through to the closest reachable active source as a
Harvest target (or no target when none is reachable). -/
def find_target (creep : Creep) : Except String (Option CreepTarget) :=
  match creep.room with
  | none => Except.error "could not resolve creep room"
  | some room =>
    match (if creep.usedEnergy > 0 then firstControllerId room.structures else none) with
    | some cid => Except.ok (some (CreepTarget.Upgrade cid))
    | none =>
      Except.ok (match creep.closestActiveSource with
        | some sid => some (CreepTarget.Harvest sid)
        | none => none)

/-- `run_creep_upgrade` from the source: returns the "target still valid"
flag together with the trace of issued API calls. -/
def run_creep_upgrade (w : World) (creep : Creep) (controllerId : Nat) :
    Bool × List Command :=
  if creep.usedEnergy ≤ 0 then
    (false, [])
  else
    match w.resolveController controllerId with
    | true =>
      match w.upgradeResult creep.name controllerId with
      | ReturnCode.Ok =>
        (true, [Command.upgradeController creep.name controllerId ReturnCode.Ok])
      | ReturnCode.NotInRange =>
        (true, [Command.upgradeController creep.name controllerId ReturnCode.NotInRange,
                Command.moveTo creep.name controllerId])
      | ReturnCode.Other code =>
        (false, [Command.upgradeController creep.name controllerId (ReturnCode.Other code)])
    | false => (false, [])

/-- `run_creep_harvest` from the source: returns the "target still valid"
flag together with the trace of issued API calls. -/
def run_creep_harvest (w : World) (creep : Creep) (sourceId : Nat) :
    Bool × List Command :=
  if creep.freeCapacity ≤ 0 then
    (false, [])
  else
    match w.resolveSource sourceId with
    | true =>
      match w.harvestResult creep.name sourceId with
      | ReturnCode.Ok =>
        (true, [Command.harvest creep.name sourceId ReturnCode.Ok])
      | ReturnCode.NotInRange =>
        (true, [Command.harvest creep.name sourceId ReturnCode.NotInRange,
                Command.moveTo creep.name sourceId])
      | ReturnCode.Other code =>
        (false, [Command.harvest creep.name sourceId (ReturnCode.Other code)])
    | false => (false, [])

/-- `run_creep_by_target` from the source: dispatch on the target variant. -/
def run_creep_by_target (w : World) (creep : Creep) (creep_target : CreepTarget) :
    Bool × List Command :=
  match creep_target with
  | CreepTarget.Upgrade controllerId => run_creep_upgrade w creep controllerId
  | CreepTarget.Harvest sourceId => run_creep_harvest w creep sourceId

/-- `run_creep` from the source: a still-spawning creep is returned
untouched; otherwise run the held target (keeping it when still valid and
re-selecting when not), or select a first target when none is held. -/
def run_creep (w : World) (creep : Creep) (creep_state : CreepState) :
    Except String (CreepState × List Command) :=
  if creep.spawning then
    Except.ok (creep_state, [])
  else
    match creep_state.target with
    | some creep_target =>
      let res := run_creep_by_target w creep creep_target
      if res.1 then
        Except.ok ({ target := some creep_target }, res.2)
      else do
        let newTarget ← find_target creep
        Except.ok ({ target := newTarget }, res.2)
    | none => do
      let newTarget ← find_target creep
      Except.ok ({ target := newTarget }, [])

/-- The Unit State Store `CREEP_STATES`, modelled as an association list
with `HashMap` semantics (`mapInsert` overwrites, keys are unique as long
as the map is built with `mapInsert`). -/
abbrev StateMap := List (String × CreepState)

/-- `HashMap` lookup. -/
def mapLookup (m : StateMap) (k : String) : Option CreepState :=
  match m with
  | [] => none
  | (k', v) :: rest => if k' = k then some v else mapLookup rest k

/-- `HashMap` removal (the removal half of `HashMap::remove`). -/
def mapErase (m : StateMap) (k : String) : StateMap :=
  m.filter (fun p => p.1 ≠ k)

/-- `HashMap` insertion: overwrites any previous binding of the key. -/
def mapInsert (k : String) (v : CreepState) (m : StateMap) : StateMap :=
  (k, v) :: mapErase m k

/-- The key set of the store. -/
def mapKeys (m : StateMap) : List String :=
  m.map Prod.fst

/-- `run_creeps` from the source: iterate the live roster; for each live
creep, `HashMap::remove` its prior record (run `run_creep` on it and
reinsert) or, when no prior record exists, insert a fresh `target = None`
record without running the creep.  Entries whose key is never visited by
the loop are left in the store untouched. -/
def run_creeps (w : World) : List Creep → StateMap → Except String (StateMap × List Command)
  | [], states => Except.ok (states, [])
  | creep :: rest, states =>
    match mapLookup states creep.name with
    | some creep_state =>
      match run_creep w creep creep_state with
      | Except.error e => Except.error e
      | Except.ok res =>
        match run_creeps w rest (mapInsert creep.name res.1 (mapErase states creep.name)) with
        | Except.error e => Except.error e
        | Except.ok rest_res => Except.ok (rest_res.1, res.2 ++ rest_res.2)
    | none => run_creeps w rest (mapInsert creep.name { target := none } states)

/-- Body part kinds used by the fixed body plan (the crate's `Part` has
more variants; only those the source mentions are modelled). -/
inductive BodyPart
  | Move
  | Carry
  | Work
deriving DecidableEq, Repr

/-- Crate part costs: `Part::cost()` for the modelled variants. -/
def BodyPart.cost : BodyPart → Nat
  | BodyPart.Move => 50
  | BodyPart.Carry => 50
  | BodyPart.Work => 100

/-- The fixed body plan `[Move, Move, Carry, Work]` of `spawn_creeps`. -/
def spawnBody : List BodyPart := [BodyPart.Move, BodyPart.Move, BodyPart.Carry, BodyPart.Work]

/-- The requested creep name `format!("{}-{}", game::time(), additional)`. -/
def nameFor (time additional : Nat) : String :=
  toString time ++ "-" ++ toString additional

/-- The loop of `spawn_creeps`, threading the per-tick sequence counter
`additional` (started at 0 by `spawn_creeps`).  For each spawn whose room
energy affords the fixed body plan, a creation request is issued; the
counter is incremented only when the request returns `Ok`.
`spawn.room().unwrap()` panics (modelled as `.error`) on a missing room. -/
def spawn_creeps_go (w : World) (time : Nat) :
    List Spawn → Nat → Except String (Nat × List Command)
  | [], additional => Except.ok (additional, [])
  | sp :: rest, additional =>
    match sp.room with
    | none => Except.error "unwrap on a missing spawn room"
    | some room =>
      if room.energyAvailable ≥ (spawnBody.map BodyPart.cost).sum then
        let name := nameFor time additional
        let res := w.spawnResult sp.name name
        if res ≠ ReturnCode.Ok then
          match spawn_creeps_go w time rest additional with
          | Except.error e => Except.error e
          | Except.ok rest_res =>
            Except.ok (rest_res.1, Command.spawnCreep sp.name name additional res :: rest_res.2)
        else
          match spawn_creeps_go w time rest (additional + 1) with
          | Except.error e => Except.error e
          | Except.ok rest_res =>
            Except.ok (rest_res.1, Command.spawnCreep sp.name name additional res :: rest_res.2)
      else
        spawn_creeps_go w time rest additional

/-- `spawn_creeps` from the source: the loop with `additional = 0`. -/
def spawn_creeps (w : World) (time : Nat) (spawns : List Spawn) :
    Except String (Nat × List Command) :=
  spawn_creeps_go w time spawns 0

/-! ### Trace classification helpers -/

/-- A movement command in the trace. -/
def Command.isMove : Command → Bool
  | Command.moveTo _ _ => true
  | _ => false

/-- Any work API call (upgrade or harvest attempt) in the trace,
whatever status it came back with. -/
def Command.isWorkCall : Command → Bool
  | Command.upgradeController _ _ _ => true
  | Command.harvest _ _ _ => true
  | _ => false

/-- An executed work command: a work API call the simulation accepted
(`Ok`).  A call rejected with `NotInRange` or any other failure status is
an attempt, not an executed command (the spec calls it "the rejected work
attempt"). -/
def Command.isExecutedWork : Command → Bool
  | Command.upgradeController _ _ ReturnCode.Ok => true
  | Command.harvest _ _ ReturnCode.Ok => true
  | _ => false

/-- Whether a roster structure is the controller variant. -/
def StructureObject.isCtrl : StructureObject → Bool
  | StructureObject.Controller _ => true
  | StructureObject.OtherStructure _ => false

/-! ### Concrete fixtures for closed evaluations -/

/-- A world where every identifier resolves and every action reports
`NotInRange`. -/
def farWorld : World :=
  { resolveController := fun _ => true
    resolveSource := fun _ => true
    upgradeResult := fun _ _ => ReturnCode.NotInRange
    harvestResult := fun _ _ => ReturnCode.NotInRange
    spawnResult := fun _ _ => ReturnCode.Ok }

/-- A world where no identifier resolves and every action is rejected. -/
def deadWorld : World :=
  { resolveController := fun _ => false
    resolveSource := fun _ => false
    upgradeResult := fun _ _ => ReturnCode.Other (-6)
    harvestResult := fun _ _ => ReturnCode.Other (-6)
    spawnResult := fun _ _ => ReturnCode.Other (-6) }

/-- An empty-handed worker creep fixture. -/
def emptyCreep : Creep :=
  { name := "worker1"
    spawning := false
    usedEnergy := 0
    freeCapacity := 0
    room := some { structures := [], energyAvailable := 0 }
    closestActiveSource := some 3 }

/-- A loaded worker creep fixture. -/
def loadedCreep : Creep :=
  { name := "worker2"
    spawning := false
    usedEnergy := 50
    freeCapacity := 25
    room := some { structures := [StructureObject.OtherStructure 0,
                                  StructureObject.Controller 9], energyAvailable := 0 }
    closestActiveSource := some 4 }

/-- A creep fixture still in its spawning phase. -/
def hatchingCreep : Creep :=
  { name := "worker3"
    spawning := true
    usedEnergy := 10
    freeCapacity := 40
    room := some { structures := [], energyAvailable := 0 }
    closestActiveSource := none }

/-! ### Claim theorems -/

/-- C8: a creep flagged as spawning is returned with its prior state
unchanged: no transition, no target selection or discard, and no external
command issued. -/
theorem spawning_creep_untouched (w : World) (creep : Creep) (s : CreepState)
    (h : creep.spawning = true) :
    run_creep w creep s = Except.ok (s, []) := by
  simp [run_creep, h]

/-- Witness for C8 at a concrete spawning creep holding a target. -/
theorem spawning_creep_untouched_witness :
    run_creep farWorld hatchingCreep { target := some (CreepTarget.Upgrade 9) }
      = Except.ok ({ target := some (CreepTarget.Upgrade 9) }, []) :=
  spawning_creep_untouched farWorld hatchingCreep _ rfl

/-- C4: with zero carried energy an Upgrade target is reported invalid, and
with zero (the code checks: non-positive) free capacity a Harvest target is
reported invalid, in both cases immediately — for every world, i.e. before
and independent of identifier resolution, and with an empty command
trace. -/
theorem zero_resources_short_circuit (w : World) (creep : Creep) (cid sid : Nat) :
    (creep.usedEnergy = 0 → run_creep_upgrade w creep cid = (false, [])) ∧
    (creep.freeCapacity ≤ 0 → run_creep_harvest w creep sid = (false, [])) := by
  constructor
  · intro h
    simp [run_creep_upgrade, h]
  · intro h
    simp [run_creep_harvest, h]

/-- Witness for C4 at a concrete empty creep in a world where both targets
would otherwise resolve. -/
theorem zero_resources_short_circuit_witness :
    run_creep_upgrade farWorld emptyCreep 9 = (false, []) ∧
    run_creep_harvest farWorld emptyCreep 3 = (false, []) :=
  ⟨(zero_resources_short_circuit farWorld emptyCreep 9 3).1 rfl,
   (zero_resources_short_circuit farWorld emptyCreep 9 3).2 (by decide)⟩

/-- C5: the Task Executor is a total function into `Bool × List Command`
(it never throws), and each failure path reports the target invalid: an
identifier that fails to resolve yields `false`, and an action status other
than `Ok` and `NotInRange` (the `Other` codes of the modelled enumeration)
yields `false`. -/
theorem executor_failure_paths_return_invalid (w : World) (creep : Creep) (cid sid : Nat) :
    (w.resolveController cid = false →
      (run_creep_by_target w creep (CreepTarget.Upgrade cid)).1 = false) ∧
    (w.resolveSource sid = false →
      (run_creep_by_target w creep (CreepTarget.Harvest sid)).1 = false) ∧
    (∀ code : Int, w.upgradeResult creep.name cid = ReturnCode.Other code →
      (run_creep_by_target w creep (CreepTarget.Upgrade cid)).1 = false) ∧
    (∀ code : Int, w.harvestResult creep.name sid = ReturnCode.Other code →
      (run_creep_by_target w creep (CreepTarget.Harvest sid)).1 = false) := by
  refine ⟨?_, ?_, ?_, ?_⟩
  · intro h
    by_cases he : creep.usedEnergy ≤ 0 <;>
      simp [run_creep_by_target, run_creep_upgrade, he, h]
  · intro h
    by_cases he : creep.freeCapacity ≤ 0 <;>
      simp [run_creep_by_target, run_creep_harvest, he, h]
  · intro code h
    by_cases he : creep.usedEnergy ≤ 0
    · simp [run_creep_by_target, run_creep_upgrade, he]
    · cases hr : w.resolveController cid <;>
        simp [run_creep_by_target, run_creep_upgrade, he, hr, h]
  · intro code h
    by_cases he : creep.freeCapacity ≤ 0
    · simp [run_creep_by_target, run_creep_harvest, he]
    · cases hr : w.resolveSource sid <;>
        simp [run_creep_by_target, run_creep_harvest, he, hr, h]

/-- Witness for C5 at a concrete loaded creep in a world where nothing
resolves and every action is rejected. -/
theorem executor_failure_paths_return_invalid_witness :
    (run_creep_by_target deadWorld loadedCreep (CreepTarget.Upgrade 9)).1 = false ∧
    (run_creep_by_target deadWorld loadedCreep (CreepTarget.Harvest 4)).1 = false ∧
    (run_creep_by_target deadWorld loadedCreep (CreepTarget.Upgrade 1)).1 = false :=
  ⟨(executor_failure_paths_return_invalid deadWorld loadedCreep 9 4).1 rfl,
   (executor_failure_paths_return_invalid deadWorld loadedCreep 9 4).2.1 rfl,
   (executor_failure_paths_return_invalid deadWorld loadedCreep 1 4).2.2.1 (-6) rfl⟩

/-- A creep fixture whose room does not resolve. -/
def lostCreep : Creep :=
  { name := "worker4"
    spawning := false
    usedEnergy := 0
    freeCapacity := 50
    room := none
    closestActiveSource := none }

/-- C2: a Working creep receiving `NotInRange` on either target variant is
reported still valid, keeps the identical Target Descriptor for the next
tick, and the trace holds exactly the rejected work attempt followed by
one move-toward-target command — nothing else. -/
theorem notInRange_keeps_target (w : World) (creep : Creep) (cid sid : Nat) :
    (0 < creep.usedEnergy → w.resolveController cid = true →
      w.upgradeResult creep.name cid = ReturnCode.NotInRange →
      run_creep_by_target w creep (CreepTarget.Upgrade cid)
        = (true, [Command.upgradeController creep.name cid ReturnCode.NotInRange,
                  Command.moveTo creep.name cid]) ∧
      (creep.spawning = false →
        run_creep w creep { target := some (CreepTarget.Upgrade cid) }
          = Except.ok ({ target := some (CreepTarget.Upgrade cid) },
              [Command.upgradeController creep.name cid ReturnCode.NotInRange,
               Command.moveTo creep.name cid]))) ∧
    (0 < creep.freeCapacity → w.resolveSource sid = true →
      w.harvestResult creep.name sid = ReturnCode.NotInRange →
      run_creep_by_target w creep (CreepTarget.Harvest sid)
        = (true, [Command.harvest creep.name sid ReturnCode.NotInRange,
                  Command.moveTo creep.name sid]) ∧
      (creep.spawning = false →
        run_creep w creep { target := some (CreepTarget.Harvest sid) }
          = Except.ok ({ target := some (CreepTarget.Harvest sid) },
              [Command.harvest creep.name sid ReturnCode.NotInRange,
               Command.moveTo creep.name sid]))) := by
  constructor
  · intro h1 h2 h3
    have hne : ¬ creep.usedEnergy ≤ 0 := by omega
    have hb : run_creep_by_target w creep (CreepTarget.Upgrade cid)
        = (true, [Command.upgradeController creep.name cid ReturnCode.NotInRange,
                  Command.moveTo creep.name cid]) := by
      simp [run_creep_by_target, run_creep_upgrade, hne, h2, h3]
    refine ⟨hb, ?_⟩
    intro hs
    simp [run_creep, hs, hb]
  · intro h1 h2 h3
    have hne : ¬ creep.freeCapacity ≤ 0 := by omega
    have hb : run_creep_by_target w creep (CreepTarget.Harvest sid)
        = (true, [Command.harvest creep.name sid ReturnCode.NotInRange,
                  Command.moveTo creep.name sid]) := by
      simp [run_creep_by_target, run_creep_harvest, hne, h2, h3]
    refine ⟨hb, ?_⟩
    intro hs
    simp [run_creep, hs, hb]

/-- Witness for C2: a loaded creep out of range of its controller, and the
same creep out of range of its source. -/
theorem notInRange_keeps_target_witness :
    run_creep_by_target farWorld loadedCreep (CreepTarget.Upgrade 9)
      = (true, [Command.upgradeController "worker2" 9 ReturnCode.NotInRange,
                Command.moveTo "worker2" 9]) ∧
    run_creep farWorld loadedCreep { target := some (CreepTarget.Harvest 4) }
      = Except.ok ({ target := some (CreepTarget.Harvest 4) },
          [Command.harvest "worker2" 4 ReturnCode.NotInRange,
           Command.moveTo "worker2" 4]) :=
  ⟨((notInRange_keeps_target farWorld loadedCreep 9 4).1 (by decide) rfl rfl).1,
   ((notInRange_keeps_target farWorld loadedCreep 9 4).2 (by decide) rfl rfl).2 rfl⟩

/-- C7: a creep name in the live roster with no prior store entry gets a
fresh `target = none` record inserted, with no target selection and no
command issued that tick — whatever targets its surroundings would offer;
and a creep holding `target = none` on a later tick immediately runs the
Target Selection Policy. -/
theorem new_creep_idle_first_tick (w : World) (creep : Creep) (states : StateMap)
    (h : mapLookup states creep.name = none) :
    run_creeps w [creep] states
      = Except.ok (mapInsert creep.name { target := none } states, []) ∧
    (∀ tgt, creep.spawning = false → find_target creep = Except.ok tgt →
      run_creep w creep { target := none } = Except.ok ({ target := tgt }, [])) := by
  constructor
  · simp [run_creeps, h]
  · intro tgt hs hf
    simp [run_creep, hs, hf]
    rfl

/-- Witness for C7: a brand-new creep entering an empty store is inserted
idle with no commands, although `find_target` would give it an Upgrade
target — which it receives when processed again while idle. -/
theorem new_creep_idle_first_tick_witness :
    run_creeps farWorld [loadedCreep] []
      = Except.ok (mapInsert "worker2" { target := none } [], []) ∧
    run_creep farWorld loadedCreep { target := none }
      = Except.ok ({ target := some (CreepTarget.Upgrade 9) }, []) :=
  ⟨(new_creep_idle_first_tick farWorld loadedCreep [] rfl).1,
   (new_creep_idle_first_tick farWorld loadedCreep [] rfl).2
     (some (CreepTarget.Upgrade 9)) rfl rfl⟩

/-- C10: when a creep's room does not resolve, `find_target` does not
return "no target": it panics (an `.error` in the embedding), and the
panic propagates out of `run_creeps`, aborting the tick — even though the
spec's error taxonomy says no error in this core escalates to abort the
tick. -/
theorem find_target_panics_without_room (w : World) (creep : Creep) (states : StateMap)
    (h : creep.room = none) :
    find_target creep = Except.error "could not resolve creep room" ∧
    (creep.spawning = false → mapLookup states creep.name = some { target := none } →
      run_creeps w [creep] states = Except.error "could not resolve creep room") := by
  have hft : find_target creep = Except.error "could not resolve creep room" := by
    simp [find_target, h]
  refine ⟨hft, ?_⟩
  intro hs hl
  have hrc : run_creep w creep { target := none }
      = Except.error "could not resolve creep room" := by
    simp [run_creep, hs, hft]
    rfl
  simp [run_creeps, hl, hrc]

/-- Witness for C10: a roomless idle creep aborts the whole tick. -/
theorem find_target_panics_without_room_witness :
    find_target lostCreep = Except.error "could not resolve creep room" ∧
    run_creeps farWorld [lostCreep] [("worker4", { target := none })]
      = Except.error "could not resolve creep room" :=
  ⟨(find_target_panics_without_room farWorld lostCreep
      [("worker4", { target := none })] rfl).1,
   (find_target_panics_without_room farWorld lostCreep
      [("worker4", { target := none })] rfl).2 rfl (by decide)⟩

/-- C3: per creep and target, one run of the Task Executor puts at most one
move command, at most one work API call, and at most one executed command
(a move, or a work call the simulation accepted with `Ok`) into the trace;
and the trace never holds both a move command and an executed work command.
The one two-entry trace is the `NotInRange` path: the rejected work attempt
followed by its move command. -/
theorem executor_at_most_one_command (w : World) (creep : Creep) (t : CreepTarget) :
    ((run_creep_by_target w creep t).2.countP (fun c => c.isMove)) ≤ 1 ∧
    ((run_creep_by_target w creep t).2.countP (fun c => c.isWorkCall)) ≤ 1 ∧
    ((run_creep_by_target w creep t).2.countP (fun c => c.isMove || c.isExecutedWork)) ≤ 1 ∧
    (((run_creep_by_target w creep t).2.any Command.isMove)
      && ((run_creep_by_target w creep t).2.any Command.isExecutedWork)) = false := by
  cases t with
  | Upgrade cid =>
    by_cases he : creep.usedEnergy ≤ 0
    · simp [run_creep_by_target, run_creep_upgrade, he]
    · cases hr : w.resolveController cid
      · simp [run_creep_by_target, run_creep_upgrade, he, hr]
      · cases hu : w.upgradeResult creep.name cid <;>
          simp [run_creep_by_target, run_creep_upgrade, he, hr, hu,
                Command.isMove, Command.isExecutedWork, Command.isWorkCall]
  | Harvest sid =>
    by_cases he : creep.freeCapacity ≤ 0
    · simp [run_creep_by_target, run_creep_harvest, he]
    · cases hr : w.resolveSource sid
      · simp [run_creep_by_target, run_creep_harvest, he, hr]
      · cases hu : w.harvestResult creep.name sid <;>
          simp [run_creep_by_target, run_creep_harvest, he, hr, hu,
                Command.isMove, Command.isExecutedWork, Command.isWorkCall]

/-- If every structure of a roster is a non-controller, the scan for a
first controller comes back empty. -/
lemma firstControllerId_eq_none (l : List StructureObject)
    (h : ∀ s ∈ l, s.isCtrl = false) : firstControllerId l = none := by
  induction l with
  | nil => rfl
  | cons s rest ih =>
    cases s with
    | Controller cid =>
      exact absurd (h _ (List.mem_cons_self _ _)) (by simp [StructureObject.isCtrl])
    | OtherStructure tag =>
      simpa [firstControllerId] using ih fun s hs => h s (List.mem_cons_of_mem _ hs)

/-- The scan returns the first controller of the roster in native order. -/
lemma firstControllerId_first (pre : List StructureObject) (cid : Nat)
    (rest : List StructureObject) (h : ∀ s ∈ pre, s.isCtrl = false) :
    firstControllerId (pre ++ StructureObject.Controller cid :: rest) = some cid := by
  induction pre with
  | nil => rfl
  | cons s pr ih =>
    cases s with
    | Controller c =>
      exact absurd (h _ (List.mem_cons_self _ _)) (by simp [StructureObject.isCtrl])
    | OtherStructure tag =>
      simpa [firstControllerId] using ih fun s hs => h s (List.mem_cons_of_mem _ hs)

/-- C6: with nonzero carried energy, `find_target` returns Upgrade of the
first controller of the room's structure roster in native order (whatever
follows it); with zero carried energy, or when the roster holds no
controller, it returns Harvest of the pathfinder's nearest reachable
active source, or no target when that is `none`. -/
theorem find_target_policy (creep : Creep) (room : Room) (h : creep.room = some room) :
    (0 < creep.usedEnergy →
      ∀ pre cid rest, room.structures = pre ++ StructureObject.Controller cid :: rest →
        (∀ s ∈ pre, s.isCtrl = false) →
        find_target creep = Except.ok (some (CreepTarget.Upgrade cid))) ∧
    ((creep.usedEnergy = 0 ∨ (∀ s ∈ room.structures, s.isCtrl = false)) →
      find_target creep
        = Except.ok (Option.map CreepTarget.Harvest creep.closestActiveSource)) := by
  constructor
  · intro h1 pre cid rest hstr hpre
    have hfc : firstControllerId room.structures = some cid := by
      rw [hstr]
      exact firstControllerId_first pre cid rest hpre
    simp [find_target, h, h1, hfc]
  · intro h2
    rcases h2 with h2 | h2
    · simp [find_target, h, h2]
      cases creep.closestActiveSource <;> simp
    · have hfc : firstControllerId room.structures = none :=
        firstControllerId_eq_none _ h2
      simp [find_target, h, hfc]
      cases creep.closestActiveSource <;> simp

/-- Witness for C6: a loaded creep picks the first (and only) controller of
its roster past a non-controller entry; an empty creep picks the nearest
active source. -/
theorem find_target_policy_witness :
    find_target loadedCreep = Except.ok (some (CreepTarget.Upgrade 9)) ∧
    find_target emptyCreep = Except.ok (some (CreepTarget.Harvest 3)) :=
  ⟨(find_target_policy loadedCreep
      { structures := [StructureObject.OtherStructure 0, StructureObject.Controller 9],
        energyAvailable := 0 } rfl).1 (by decide)
      [StructureObject.OtherStructure 0] 9 [] rfl (by decide),
   (find_target_policy emptyCreep
      { structures := [], energyAvailable := 0 } rfl).2 (Or.inl rfl)⟩

/-- Key membership after a `HashMap` insert. -/
lemma mem_mapKeys_insert (k k' : String) (v : CreepState) (m : StateMap) :
    k' ∈ mapKeys (mapInsert k v m) ↔ (k' = k ∨ k' ∈ mapKeys m) := by
  by_cases hk : k' = k
  · subst hk
    simp [mapKeys, mapInsert]
  · simp only [mapKeys, mapInsert, mapErase, List.map_cons, List.mem_cons,
      List.mem_map, List.mem_filter, decide_eq_true_eq]
    constructor
    · rintro (h | ⟨p, ⟨hpm, hpk⟩, hp1⟩)
      · exact Or.inl h
      · exact Or.inr ⟨p, hpm, hp1⟩
    · rintro (h | ⟨p, hpm, hp1⟩)
      · exact Or.inl h
      · exact Or.inr ⟨p, ⟨hpm, by rw [hp1]; exact hk⟩, hp1⟩

/-- Key membership after a `HashMap` removal. -/
lemma mem_mapKeys_erase (k k' : String) (m : StateMap) :
    k' ∈ mapKeys (mapErase m k) ↔ (k' ∈ mapKeys m ∧ k' ≠ k) := by
  simp only [mapKeys, mapErase, List.mem_map, List.mem_filter, decide_eq_true_eq]
  constructor
  · rintro ⟨p, ⟨hpm, hpk⟩, hp1⟩
    exact ⟨⟨p, hpm, hp1⟩, by rw [← hp1]; exact hpk⟩
  · rintro ⟨⟨p, hpm, hp1⟩, hk⟩
    exact ⟨p, ⟨hpm, by rw [hp1]; exact hk⟩, hp1⟩

/-- C1 (amended): after `run_creeps` completes, the store's key set is the
union of the pre-tick key set with the live roster's names — every live
unit has an entry, but entries whose unit is absent from the roster are
retained, not dropped. -/
theorem store_keys_union_after_tick (w : World) (roster : List Creep) :
    ∀ (states states' : StateMap) (cmds : List Command),
      run_creeps w roster states = Except.ok (states', cmds) →
      ∀ k, k ∈ mapKeys states' ↔ (k ∈ mapKeys states ∨ k ∈ roster.map Creep.name) := by
  induction roster with
  | nil =>
    intro states states' cmds h k
    simp only [run_creeps, Except.ok.injEq, Prod.mk.injEq] at h
    obtain ⟨h1, _⟩ := h
    subst h1
    simp
  | cons creep rest ih =>
    intro states states' cmds h k
    simp only [run_creeps] at h
    cases hl : mapLookup states creep.name with
    | none =>
      simp only [hl] at h
      have hih := ih _ _ _ h k
      rw [hih, mem_mapKeys_insert]
      simp only [List.map_cons, List.mem_cons]
      tauto
    | some s =>
      simp only [hl] at h
      cases hrc : run_creep w creep s with
      | error e =>
        simp only [hrc] at h
        exact Except.noConfusion h
      | ok res =>
        simp only [hrc] at h
        cases hrr : run_creeps w rest (mapInsert creep.name res.1 (mapErase states creep.name)) with
        | error e =>
          simp only [hrr] at h
          exact Except.noConfusion h
        | ok rr =>
          simp only [hrr, Except.ok.injEq, Prod.mk.injEq] at h
          obtain ⟨h1, _⟩ := h
          subst h1
          have hih := ih _ _ _ hrr k
          rw [hih, mem_mapKeys_insert, mem_mapKeys_erase]
          simp only [List.map_cons, List.mem_cons]
          by_cases hk : k = creep.name <;> tauto

/-- Witness for C1 (amended): one live creep joins a store holding a stale
"ghost" entry; afterwards "ghost" is still a key, as the union predicts. -/
theorem store_keys_union_after_tick_witness :
    "ghost" ∈ mapKeys [("worker2", ({ target := none } : CreepState)),
                       ("ghost", { target := none })] ↔
      ("ghost" ∈ mapKeys [("ghost", ({ target := none } : CreepState))]
        ∨ "ghost" ∈ [loadedCreep].map Creep.name) :=
  store_keys_union_after_tick farWorld [loadedCreep]
    [("ghost", { target := none })]
    [("worker2", { target := none }), ("ghost", { target := none })] [] rfl "ghost"

/-- C1 counterexample: with an empty live roster and a stale "ghost" entry,
the tick completes with "ghost" still in the store although no live unit
carries that identity — stale entries for destroyed units are not
dropped, so the key set is strictly larger than the live roster. -/
theorem stale_entry_persists :
    run_creeps deadWorld [] [("ghost", { target := none })]
      = Except.ok ([("ghost", { target := none })], []) ∧
    "ghost" ∈ mapKeys [("ghost", ({ target := none } : CreepState))] ∧
    (([] : List Creep).map Creep.name).contains "ghost" = false := by
  refine ⟨rfl, ?_, rfl⟩
  simp [mapKeys]

/-- Sequence-counter values of the successful creation requests of a
trace, in order. -/
def successSeqs : List Command → List Nat
  | [] => []
  | Command.spawnCreep _ _ seq ReturnCode.Ok :: rest => seq :: successSeqs rest
  | _ :: rest => successSeqs rest

/-- C9: every creation request of the production loop carries the name
built from the tick count and the loop's sequence counter; the counter
advances exactly on `Ok` outcomes, so the successful requests of one tick
carry the consecutive counter values starting at the loop's initial value
— pairwise distinct sequence suffixes, hence distinct names. -/
theorem spawn_names_unique (w : World) (time : Nat) :
    ∀ (spawns : List Spawn) (a a' : Nat) (cmds : List Command),
      spawn_creeps_go w time spawns a = Except.ok (a', cmds) →
      (∀ cmd ∈ cmds, ∃ spn seq rc, cmd = Command.spawnCreep spn (nameFor time seq) seq rc) ∧
      a' = a + (successSeqs cmds).length ∧
      successSeqs cmds = List.range' a (successSeqs cmds).length ∧
      (successSeqs cmds).Nodup := by
  intro spawns
  induction spawns with
  | nil =>
    intro a a' cmds h
    simp only [spawn_creeps_go, Except.ok.injEq, Prod.mk.injEq] at h
    obtain ⟨h1, h2⟩ := h
    subst h1
    subst h2
    simp [successSeqs]
  | cons sp rest ih =>
    intro a a' cmds h
    simp only [spawn_creeps_go] at h
    cases hroom : sp.room with
    | none =>
      simp only [hroom] at h
      exact Except.noConfusion h
    | some room =>
      simp only [hroom] at h
      by_cases hen : room.energyAvailable ≥ (spawnBody.map BodyPart.cost).sum
      · rw [if_pos hen] at h
        cases hres : w.spawnResult sp.name (nameFor time a) with
        | Ok =>
          rw [hres, if_neg (by simp)] at h
          cases hgo : spawn_creeps_go w time rest (a + 1) with
          | error e =>
            rw [hgo] at h
            exact Except.noConfusion h
          | ok rest_res =>
            rw [hgo] at h
            simp only [Except.ok.injEq, Prod.mk.injEq] at h
            obtain ⟨h1, h2⟩ := h
            subst h1
            subst h2
            obtain ⟨ihm, ihlen, ihrange, ihnodup⟩ := ih (a + 1) rest_res.1 rest_res.2 hgo
            refine ⟨?_, ?_, ?_, ?_⟩
            · intro cmd hc
              rcases List.mem_cons.mp hc with hc | hc
              · exact ⟨sp.name, a, ReturnCode.Ok, hc⟩
              · exact ihm cmd hc
            · simp only [successSeqs, List.length_cons]
              omega
            · simp only [successSeqs, List.length_cons]
              rw [List.range'_succ]
              rw [← ihrange]
            · simp only [successSeqs]
              rw [ihrange]
              have : (a :: List.range' (a + 1) (successSeqs rest_res.2).length)
                  = List.range' a ((successSeqs rest_res.2).length + 1) :=
                (List.range'_succ a (successSeqs rest_res.2).length 1).symm
              rw [this]
              exact List.nodup_range' _ _
        | NotInRange =>
          rw [hres, if_pos (by simp)] at h
          cases hgo : spawn_creeps_go w time rest a with
          | error e =>
            rw [hgo] at h
            exact Except.noConfusion h
          | ok rest_res =>
            rw [hgo] at h
            simp only [Except.ok.injEq, Prod.mk.injEq] at h
            obtain ⟨h1, h2⟩ := h
            subst h1
            subst h2
            obtain ⟨ihm, ihlen, ihrange, ihnodup⟩ := ih a rest_res.1 rest_res.2 hgo
            refine ⟨?_, ?_, ?_, ?_⟩
            · intro cmd hc
              rcases List.mem_cons.mp hc with hc | hc
              · exact ⟨sp.name, a, ReturnCode.NotInRange, hc⟩
              · exact ihm cmd hc
            · simpa [successSeqs] using ihlen
            · simpa [successSeqs] using ihrange
            · simpa [successSeqs] using ihnodup
        | Other code =>
          rw [hres, if_pos (by simp)] at h
          cases hgo : spawn_creeps_go w time rest a with
          | error e =>
            rw [hgo] at h
            exact Except.noConfusion h
          | ok rest_res =>
            rw [hgo] at h
            simp only [Except.ok.injEq, Prod.mk.injEq] at h
            obtain ⟨h1, h2⟩ := h
            subst h1
            subst h2
            obtain ⟨ihm, ihlen, ihrange, ihnodup⟩ := ih a rest_res.1 rest_res.2 hgo
            refine ⟨?_, ?_, ?_, ?_⟩
            · intro cmd hc
              rcases List.mem_cons.mp hc with hc | hc
              · exact ⟨sp.name, a, ReturnCode.Other code, hc⟩
              · exact ihm cmd hc
            · simpa [successSeqs] using ihlen
            · simpa [successSeqs] using ihrange
            · simpa [successSeqs] using ihnodup
      · rw [if_neg hen] at h
        obtain ⟨ihm, ihlen, ihrange, ihnodup⟩ := ih a a' cmds h
        exact ⟨ihm, ihlen, ihrange, ihnodup⟩

/-- A spawn fixture with room energy exactly affording the body plan. -/
def richSpawn (nm : String) : Spawn :=
  { name := nm, room := some { structures := [], energyAvailable := 250 } }

/-- Witness for C9: two spawns that both succeed in the same tick receive
the sequence suffixes 0 and 1, and their rendered names differ. -/
theorem spawn_names_unique_witness :
    2 = 0 + (successSeqs [Command.spawnCreep "s1" (nameFor 42 0) 0 ReturnCode.Ok,
                          Command.spawnCreep "s2" (nameFor 42 1) 1 ReturnCode.Ok]).length ∧
    successSeqs [Command.spawnCreep "s1" (nameFor 42 0) 0 ReturnCode.Ok,
                 Command.spawnCreep "s2" (nameFor 42 1) 1 ReturnCode.Ok]
      = List.range' 0 (successSeqs [Command.spawnCreep "s1" (nameFor 42 0) 0 ReturnCode.Ok,
                                    Command.spawnCreep "s2" (nameFor 42 1) 1 ReturnCode.Ok]).length ∧
    (successSeqs [Command.spawnCreep "s1" (nameFor 42 0) 0 ReturnCode.Ok,
                  Command.spawnCreep "s2" (nameFor 42 1) 1 ReturnCode.Ok]).Nodup ∧
    (nameFor 42 0 == nameFor 42 1) = false :=
  ⟨(spawn_names_unique farWorld 42 [richSpawn "s1", richSpawn "s2"] 0 2
      [Command.spawnCreep "s1" (nameFor 42 0) 0 ReturnCode.Ok,
       Command.spawnCreep "s2" (nameFor 42 1) 1 ReturnCode.Ok] rfl).2.1,
   (spawn_names_unique farWorld 42 [richSpawn "s1", richSpawn "s2"] 0 2
      [Command.spawnCreep "s1" (nameFor 42 0) 0 ReturnCode.Ok,
       Command.spawnCreep "s2" (nameFor 42 1) 1 ReturnCode.Ok] rfl).2.2.1,
   (spawn_names_unique farWorld 42 [richSpawn "s1", richSpawn "s2"] 0 2
      [Command.spawnCreep "s1" (nameFor 42 0) 0 ReturnCode.Ok,
       Command.spawnCreep "s2" (nameFor 42 1) 1 ReturnCode.Ok] rfl).2.2.2,
   by decide⟩
